import Mathlib

/-
Verification of the MCP tool-provider connection-lifecycle subsystem:
shallow embedding of the utilities in
packages/@n8n/nodes-langchain/nodes/mcp/McpClientTool/utils.ts,
packages/@n8n/json-schema-to-zod/src/parsers/parse-ref.ts and
packages/@n8n/nodes-langchain/nodes/agents/Agent/agents/ToolsAgent/V2/execute.ts,
together with theorems about pagination, tool selection, schema adaptation,
URL normalization and the agent's fetch-once / close-at-teardown discipline.
-/

/-! ## A small model of JavaScript runtime values -/

/-- A JavaScript-like runtime value: undefined, null, booleans, numbers,
strings, arrays and plain objects (a list of named fields). -/
inductive JsVal where
  | vUndef
  | vNull
  | vBool (b : Bool)
  | vNum (n : Int)
  | vStr (s : String)
  | vArr (elems : List JsVal)
  | vObj (fields : List (String × JsVal))

/-- JavaScript truthiness: undefined, null, false, 0 and the empty string are
falsy; arrays and objects are always truthy. -/
def jsTruthy : JsVal → Bool
  | JsVal.vUndef => false
  | JsVal.vNull => false
  | JsVal.vBool b => b
  | JsVal.vNum n => if n = 0 then false else true
  | JsVal.vStr s => if s = "" then false else true
  | JsVal.vArr _ => true
  | JsVal.vObj _ => true

/-- Whether `typeof v` is the string "object" in JavaScript: true for null,
arrays and plain objects. -/
def isTypeofObject : JsVal → Bool
  | JsVal.vNull => true
  | JsVal.vArr _ => true
  | JsVal.vObj _ => true
  | _ => false

/-- Whether the value is an array (`Array.isArray`). -/
def isArrayB : JsVal → Bool
  | JsVal.vArr _ => true
  | _ => false

/-- The elements of an array value, empty for anything else. -/
def arrElems : JsVal → List JsVal
  | JsVal.vArr es => es
  | _ => []

/-- Property-presence test, the JavaScript `k in v` on plain objects. -/
def objHas (v : JsVal) (k : String) : Bool :=
  match v with
  | JsVal.vObj fs => fs.any (fun p => p.1 = k)
  | _ => false

/-- Property access `v[k]`; absent properties read as undefined. -/
def objGet (v : JsVal) (k : String) : JsVal :=
  match v with
  | JsVal.vObj fs => ((fs.find? (fun p => p.1 = k)).map (fun p => p.2)).getD JsVal.vUndef
  | _ => JsVal.vUndef

/-- Whether the value is a string (`typeof v === "string"`). -/
def isStringB : JsVal → Bool
  | JsVal.vStr _ => true
  | _ => false

/-- The underlying string of a string value. -/
def asString : JsVal → Option String
  | JsVal.vStr s => some s
  | _ => none

/-- The JavaScript Object.keys on a truthy value: the field names of an
object, index strings for arrays and strings, and the empty list for numbers
and booleans. -/
def jsObjectKeys : JsVal → List String
  | JsVal.vObj fs => fs.map (fun p => p.1)
  | JsVal.vArr es => (List.range es.length).map (fun i => toString i)
  | JsVal.vStr s => (List.range s.length).map (fun i => toString i)
  | _ => []

/-! ## Error-description extraction (utils.ts, getErrorDescriptionFromToolCall) -/

/-- Translated from `getErrorDescriptionFromToolCall` in McpClientTool/utils.ts:
for a truthy object, a present `content` array yields the `text` of its first
element that is a truthy object with a string `text` field (possibly none);
otherwise a string `toolResult` field is returned; otherwise a string
`message` field; otherwise none. Non-objects yield none. -/
def getErrorDescriptionFromToolCall (result : JsVal) : Option String :=
  if jsTruthy result && isTypeofObject result then
    if objHas result ("content") && isArrayB (objGet result ("content")) then
      Option.bind
        ((arrElems (objGet result ("content"))).find?
          (fun c => jsTruthy c && isTypeofObject c && isStringB (objGet c ("text"))))
        (fun c => asString (objGet c ("text")))
    else if objHas result ("toolResult") && isStringB (objGet result ("toolResult")) then
      asString (objGet result ("toolResult"))
    else if objHas result ("message") && isStringB (objGet result ("message")) then
      asString (objGet result ("message"))
    else none
  else none

/-! ## Tool selection (utils.ts, getSelectedTools) -/

/-- An MCP capability descriptor: name, optional description and the
JSON-schema value declared for its input. -/
structure McpTool where
  name : String
  description : Option String
  inputSchema : JsVal

/-- Translated from `getSelectedTools` in McpClientTool/utils.ts. The mode is
a runtime string (the TypeScript union has a default switch arm): `selected`
with a missing or empty include list returns everything, otherwise keeps the
named tools; `except` removes the named tools; anything else returns the
catalogue unchanged. -/
def getSelectedTools (mode : String) (includeTools excludeTools : Option (List String))
    (tools : List McpTool) : List McpTool :=
  if mode = "selected" then
    match includeTools with
    | none => tools
    | some l => if l.length = 0 then tools else tools.filter (fun t => l.contains t.name)
  else if mode = "except" then
    tools.filter (fun t => !((excludeTools.getD []).contains t.name))
  else tools

/-! ## Paginated capability listing (utils.ts, getAllTools) -/

/-- One response of the remote `listTools` endpoint: the capability array
(`none` models a missing or non-array `tools` field) and the optional
pagination cursor. -/
structure ListToolsResponse (α : Type) where
  tools : Option (List α)
  nextCursor : Option String

/-- Translated from `getAllTools` in McpClientTool/utils.ts. The remote side
is a function from an optional cursor to a response or a transport error; a
missing or non-array `tools` field is replaced by the empty array; the
recursion follows `nextCursor` while it is truthy (in JavaScript the empty
string is falsy, so it terminates the chain) and concatenates pages in order.
The fuel bounds the recursion depth; `none` models a cursor chain longer than
the fuel (the source would still be recursing). A transport error on any page
is propagated as the whole result. -/
def getAllTools (listTools : Option String → Except ε (ListToolsResponse α)) :
    Nat → Option String → Option (Except ε (List α))
  | 0, _ => none
  | Nat.succ fuel, cursor =>
    match listTools cursor with
    | Except.error e => some (Except.error e)
    | Except.ok resp =>
      let currentTools := resp.tools.getD []
      match resp.nextCursor with
      | some c2 =>
        if c2 = "" then some (Except.ok currentTools)
        else Option.map (Except.map (fun rest => currentTools ++ rest))
          (getAllTools listTools fuel (some c2))
      | none => some (Except.ok currentTools)

/-- A terminating cursor chain: following the server from cursor `c` visits
exactly the pages `ps`, each page's `nextCursor` (while truthy) naming the
next request, and the last page carrying a falsy cursor. -/
inductive Chain (srv : Option String → Except ε (ListToolsResponse α)) :
    Option String → List (ListToolsResponse α) → Prop where
  | last (c : Option String) (p : ListToolsResponse α) :
      srv c = Except.ok p → (p.nextCursor = none ∨ p.nextCursor = some "") →
      Chain srv c [p]
  | step (c : Option String) (p : ListToolsResponse α) (c2 : String)
      (ps : List (ListToolsResponse α)) :
      srv c = Except.ok p → p.nextCursor = some c2 → c2 ≠ "" →
      Chain srv (some c2) ps → Chain srv c (p :: ps)

/-- A cursor chain that reaches a transport failure after `n` successful
pages, starting from cursor `c`. -/
inductive FailsAt (srv : Option String → Except ε (ListToolsResponse α)) :
    Option String → ε → Nat → Prop where
  | here (c : Option String) (e : ε) :
      srv c = Except.error e → FailsAt srv c e 0
  | there (c : Option String) (p : ListToolsResponse α) (c2 : String) (e : ε) (n : Nat) :
      srv c = Except.ok p → p.nextCursor = some c2 → c2 ≠ "" →
      FailsAt srv (some c2) e n → FailsAt srv c e (n + 1)

/-- First page of the three-page example server: two tools, cursor to c1. -/
def pageA : ListToolsResponse Nat := { tools := some [1, 2], nextCursor := some "c1" }

/-- Second page of the example server: the tools field is missing or not an
array, and a cursor to c2. -/
def pageB : ListToolsResponse Nat := { tools := none, nextCursor := some "c2" }

/-- Third and last page of the example server: one tool and no cursor. -/
def pageC : ListToolsResponse Nat := { tools := some [3], nextCursor := none }

/-- A concrete three-page server used as a pagination witness. -/
def srvOkEx : Option String → Except String (ListToolsResponse Nat) := fun c =>
  match c with
  | none => Except.ok pageA
  | some s =>
    if s = "c1" then Except.ok pageB
    else if s = "c2" then Except.ok pageC
    else Except.error ("unknown cursor")

/-- A concrete server whose second page request fails at the transport level. -/
def srvFailEx : Option String → Except String (ListToolsResponse Nat) := fun c =>
  match c with
  | none => Except.ok pageA
  | some _ => Except.error ("transport failure")

/-! ## A model of compiled zod validators -/

/-- A compiled zod validator: `any` accepts everything, `str`/`num` check the
primitive type, `lazy` defers to a thunk resolved only when invoked, and
`obj` validates each listed property of an object when present (properties
compile to optional validators). -/
inductive Zod where
  | any
  | str
  | num
  | lazy (f : Unit → Zod)
  | obj (props : List (String × Zod))

/-- The runtime tag inspection `zodSchema._def.typeName === "ZodAny"`: true
exactly for the `any` validator (a lazy validator has tag ZodLazy, so it is
not detected even if its thunk yields `any`). -/
def isZodAny : Zod → Bool
  | Zod.any => true
  | _ => false

/-- Invoking a compiled validator on a value. The fuel bounds the recursion
depth through `lazy` thunks; exhausted fuel rejects, modelling a validator
that would still be recursing. -/
def zodValidate (fuel : Nat) (z : Zod) (v : JsVal) : Bool :=
  match fuel with
  | 0 => false
  | Nat.succ f =>
    match z with
    | Zod.any => true
    | Zod.str => isStringB v
    | Zod.num => (match v with | JsVal.vNum _ => true | _ => false)
    | Zod.lazy g => zodValidate f (g ()) v
    | Zod.obj props =>
      match v with
      | JsVal.vObj _ =>
        props.all (fun kz => if objHas v kz.1 then zodValidate f kz.2 (objGet v kz.1) else true)
      | _ => false

/-! ## Schema parsing (parse-ref.ts and the adapter around it) -/

/-- A JSON-schema-like input schema: a root self-reference, some other
dollar-ref target, the primitive string and number types, and objects with
named properties. -/
inductive JSch where
  | selfRef
  | refOther (r : String)
  | tStr
  | tNum
  | objS (props : List (String × JSch))

/-- The refs context threaded through the parsers; `path` holds the root
schema at its head. -/
structure Refs where
  path : List JSch

/-- Translated from parse-ref.ts. The input schema is represented by its
dollar-ref string together with the refs context. For the root self-reference
the source builds `z.lazy` whose thunk reads the root schema from refs.path,
destructures the ref field away, and then discards that work and returns
`z.any()`; the thunk is therefore the constant `any` validator. Any other
ref target throws. -/
def parseRef (refValue : String) (refs : Refs) : Except String Zod :=
  if refValue = "#" then
    Except.ok (Zod.lazy (fun _ => Zod.any))
  else
    Except.error ("Unsupported ref: " ++ refValue ++ ". Only self-references are currently supported.")

mutual

/-- Modelled from the spec: the schema-adapter dispatcher of the
json-schema-to-zod package (only parse-ref.ts and parse-default.ts are under
src). Primitive types compile to the matching validators, objects with named
properties compile each property, and a schema carrying a dollar-ref is
delegated to `parseRef`. -/
def parseSchema (refs : Refs) : JSch → Except String Zod
  | JSch.selfRef => parseRef ("#") refs
  | JSch.refOther r => parseRef r refs
  | JSch.tStr => Except.ok Zod.str
  | JSch.tNum => Except.ok Zod.num
  | JSch.objS props => Except.map Zod.obj (parseProps refs props)

/-- Modelled from the spec: property-wise compilation of an object schema. -/
def parseProps (refs : Refs) : List (String × JSch) → Except String (List (String × Zod))
  | [] => Except.ok []
  | (k, s) :: rest =>
    match parseSchema refs s, parseProps refs rest with
    | Except.ok z, Except.ok zs => Except.ok ((k, z) :: zs)
    | Except.error e, _ => Except.error e
    | Except.ok _, Except.error e => Except.error e

end

/-- Modelled from the spec: the exported entry point of the schema adapter;
it seeds the refs path with the root schema and dispatches on it. -/
def convertJsonSchemaToZod (root : JSch) : Except String Zod :=
  parseSchema { path := [root] } root

/-- Follows the spec's words (for comparison with the compiled validator):
direct recursive acceptance of a value by a schema, where a root
self-reference recurses into the root schema, to the bounded depth given by
the fuel; listed object properties are checked when present. -/
def specSchemaAccepts (root : JSch) (fuel : Nat) (s : JSch) (v : JsVal) : Bool :=
  match fuel with
  | 0 => false
  | Nat.succ f =>
    match s with
    | JSch.selfRef => specSchemaAccepts root f root v
    | JSch.refOther _ => false
    | JSch.tStr => isStringB v
    | JSch.tNum => (match v with | JsVal.vNum _ => true | _ => false)
    | JSch.objS props =>
      match v with
      | JsVal.vObj _ =>
        props.all (fun ks => if objHas v ks.1 then specSchemaAccepts root f ks.2 (objGet v ks.1) else true)
      | _ => false

/-- A recursive root schema: an object with a string property `a` and a
property `child` that is a root self-reference. -/
def recRoot : JSch := JSch.objS [("a", JSch.tStr), ("child", JSch.selfRef)]

/-- A sample value violating `recRoot` at the referenced position: its
`child` is a number, not a value of the root schema. -/
def badSample : JsVal := JsVal.vObj [("a", JsVal.vStr ("x")), ("child", JsVal.vNum 5)]

/-- A sample value matching `recRoot`: its `child` is again an object of the
root schema (with the optional `child` absent). -/
def goodSample : JsVal :=
  JsVal.vObj [("a", JsVal.vStr ("x")),
    ("child", JsVal.vObj [("a", JsVal.vStr ("y"))])]

/-- Whether an Except is a success. -/
def isOkE : Except ε α → Bool
  | Except.ok _ => true
  | Except.error _ => false

/-- The compiled validator for `recRoot` (defaulting to `any` if compilation
failed; the theorems separately establish that it succeeds). -/
def compiledRecRoot : Zod := (convertJsonSchemaToZod recRoot).toOption.getD Zod.any

/-! ## Tool adaptation (utils.ts, mcpToolToDynamicTool) -/

/-- Failures of `convertJsonSchemaToZod` as observed by the adapter: the
dedicated UnsupportedSchemaError class, or any other thrown error. -/
inductive SchemaParseErr where
  | unsupported (msg : String)
  | other (msg : String)

/-- Errors escaping `mcpToolToDynamicTool`: a NodeOperationError wrapping an
UnsupportedSchemaError message, or a rethrown foreign error. -/
inductive ToolConvErr where
  | nodeOperation (msg : String)
  | other (msg : String)

/-- The langchain tool descriptor produced for one capability. -/
structure DynamicStructuredTool where
  name : String
  description : String
  schema : Zod

/-- Translated from `mcpToolToDynamicTool`: the source's triviality test
`!tool.inputSchema || Object.keys(tool.inputSchema).length === 0 ||
(typeof tool.inputSchema === "boolean" && tool.inputSchema === true)`.
Note that every falsy schema (undefined, null, false, 0, the empty string)
passes the first disjunct. -/
def isTrivialOriginalSchema (s : JsVal) : Bool :=
  if jsTruthy s = false then true
  else if (jsObjectKeys s).length = 0 then true
  else
    match s with
    | JsVal.vBool true => true
    | _ => false

/-- Follows the claim's words (for comparison with the source's test): a
schema is claim-trivial when it is absent (undefined or null), an empty
object, or the boolean true. -/
def claimTrivialSchema : JsVal → Bool
  | JsVal.vUndef => true
  | JsVal.vNull => true
  | JsVal.vObj [] => true
  | JsVal.vBool true => true
  | _ => false

/-- Translated from `mcpToolToDynamicTool` in McpClientTool/utils.ts, with
the schema converter passed explicitly (it is imported from a module outside
this file's scope). The try block converts the schema and, if the result is
the `any` validator although the original schema was not trivial, raises an
UnsupportedSchemaError; the catch wraps an UnsupportedSchemaError into a
NodeOperationError and rethrows anything else; on success a descriptor with
the tool's name, defaulted description and compiled validator is returned. -/
def mcpToolToDynamicTool (convert : JsVal → Except SchemaParseErr Zod) (tool : McpTool) :
    Except ToolConvErr DynamicStructuredTool :=
  let attempt : Except SchemaParseErr Zod :=
    match convert tool.inputSchema with
    | Except.error e => Except.error e
    | Except.ok zodSchema =>
      if isZodAny zodSchema && !(isTrivialOriginalSchema tool.inputSchema) then
        Except.error (SchemaParseErr.unsupported
          ("Schema for tool " ++ tool.name ++ " was converted to z.any(), indicating an unsupported feature or an empty schema that could not be processed into a stricter type."))
      else Except.ok zodSchema
  match attempt with
  | Except.ok zodSchema =>
    Except.ok { name := tool.name, description := tool.description.getD "", schema := zodSchema }
  | Except.error (SchemaParseErr.unsupported m) =>
    Except.error (ToolConvErr.nodeOperation
      ("Failed to prepare tool " ++ tool.name ++ ": Schema conversion error. " ++ m))
  | Except.error (SchemaParseErr.other m) => Except.error (ToolConvErr.other m)

/-- The error of an Except, if any. -/
def errOfExcept : Except ε α → Option ε
  | Except.error e => some e
  | Except.ok _ => none

/-- Modelled from the spec: the toolkit-building loop (the supplyData method
of McpClientTool.node.ts, which is not under src) calls
`mcpToolToDynamicTool` for each capability of the catalogue, drops a
capability whose schema conversion fails while preserving the error for
reporting, and never fails the whole build: it returns the descriptors of the
compilable capabilities (possibly none) together with the recorded errors. -/
def buildToolkit (convert : JsVal → Except SchemaParseErr Zod) (catalogue : List McpTool) :
    List DynamicStructuredTool × List ToolConvErr :=
  match catalogue with
  | [] => ([], [])
  | t :: rest =>
    let built := buildToolkit convert rest
    match mcpToolToDynamicTool convert t with
    | Except.ok d => (d :: built.1, built.2)
    | Except.error e => (built.1, e :: built.2)

/-- A converter that maps every schema to the accept-anything validator;
used to exercise the post-hoc any-detection of the adapter. -/
def anyConvert : JsVal → Except SchemaParseErr Zod := fun _ => Except.ok Zod.any

/-- A tool whose declared input schema is the boolean false. -/
def falseSchemaTool : McpTool :=
  { name := "t", description := none, inputSchema := JsVal.vBool false }

/-- A tool with a non-trivial (non-empty object) input schema. -/
def nontrivSchemaTool : McpTool :=
  { name := "nt", description := none, inputSchema := JsVal.vObj [("a", JsVal.vNum 1)] }

/-- A tool with a trivial (empty object) input schema. -/
def trivSchemaTool : McpTool :=
  { name := "tv", description := none, inputSchema := JsVal.vObj [] }

/-- A concrete converter for the toolkit-build witness: the schema 1 compiles
to the string validator, everything else is unsupported. -/
def convEx : JsVal → Except SchemaParseErr Zod := fun s =>
  match s with
  | JsVal.vNum 1 => Except.ok Zod.str
  | _ => Except.error (SchemaParseErr.unsupported ("no parser available"))

/-- A capability that compiles under `convEx`. -/
def toolOkEx : McpTool :=
  { name := "alpha", description := some "first", inputSchema := JsVal.vNum 1 }

/-- A capability whose schema is unsupported under `convEx`. -/
def toolBadEx : McpTool :=
  { name := "beta", description := none, inputSchema := JsVal.vNum 2 }

/-! ## Connection establishment (utils.ts, normalizeAndValidateUrl and connectMcpClient) -/

/-- ASCII lowercasing of a character code, for the case-insensitive scheme
match (the scheme characters are all ASCII). -/
def lowerNat (c : Char) : Nat :=
  if 65 ≤ c.toNat && c.toNat ≤ 90 then c.toNat + 32 else c.toNat

/-- Case-insensitive prefix test on character lists. -/
def listStartsWithCI : List Char → List Char → Bool
  | [], _ => true
  | _ :: _, [] => false
  | p :: ps, c :: cs => (lowerNat c = lowerNat p) && listStartsWithCI ps cs

/-- The scheme test of normalizeAndValidateUrl, the case-insensitive regex
anchored at the start matching http:// or https://. -/
def hasHttpScheme (s : String) : Bool :=
  listStartsWithCI ("http://".data) s.data || listStartsWithCI ("https://".data) s.data

/-- The string actually handed to the URL constructor: the input itself when
it already carries an http or https scheme, otherwise the input prefixed
with the secure scheme. -/
def withProtocol (input : String) : String :=
  if hasHttpScheme input then input else "https://" ++ input

/-- Translated from `normalizeAndValidateUrl` composed with `safeCreateUrl`:
the URL constructor is passed explicitly (it is a platform builtin) as a
partial parse function; a constructor failure becomes an error result. -/
def normalizeAndValidateUrl (newUrl : String → Option υ) (input : String) : Except String υ :=
  match newUrl (withProtocol input) with
  | some u => Except.ok u
  | none => Except.error ("Invalid URL: " ++ withProtocol input)

/-- The typed error of connectMcpClient. -/
inductive ConnectMcpClientError where
  | invalid_url (msg : String)
  | connection (msg : String)

/-- Network-visible steps taken by connectMcpClient, recorded for the
no-network-call-on-invalid-address property. -/
inductive NetEv (υ : Type) where
  | transportCreated (u : υ)
  | connectAttempt (u : υ)

/-- Translated from `connectMcpClient`: address validation first; on failure
an invalid_url error is returned and neither a transport is constructed nor a
connect issued (the event list is empty); on a valid address the transport is
built for the parsed URL and the handshake attempted, any handshake failure
being returned (not thrown) as a connection error. The URL constructor and
the handshake are passed explicitly; the second component records the
network-visible steps. -/
def connectMcpClient (newUrl : String → Option υ) (connect : υ → Except String γ)
    (sseEndpoint : String) : Except ConnectMcpClientError γ × List (NetEv υ) :=
  match normalizeAndValidateUrl newUrl sseEndpoint with
  | Except.error m => (Except.error (ConnectMcpClientError.invalid_url m), [])
  | Except.ok u =>
    match connect u with
    | Except.error m =>
      (Except.error (ConnectMcpClientError.connection m),
        [NetEv.transportCreated u, NetEv.connectAttempt u])
    | Except.ok c =>
      (Except.ok c, [NetEv.transportCreated u, NetEv.connectAttempt u])

/-- A concrete URL constructor for the witnesses: accepts exactly the parsed
form of the example address. -/
def urlParseEx : String → Option String := fun s =>
  if s = "https://h" then some s else none

/-- A concrete handshake that is refused by the remote side. -/
def connectEx : String → Except String Nat := fun _ =>
  Except.error ("handshake refused")

/-! ## The Tools Agent executor (ToolsAgent/V2/execute.ts) -/

/-- The value returned by getTools in execute.ts: the tools array and the
closeFunctions array. Each closer is represented by the outcome its
invocation would produce. -/
structure ToolsResult (τ : Type) where
  tools : List τ
  closeFunctions : List (Except String Unit)

/-- Observable steps of one run of toolsAgentExecute: the single getTools
call, the processing of one input item with the tools array in use at that
moment, and the invocation of one closer during teardown. -/
inductive AgentEv (τ : Type) where
  | getToolsCall
  | processItem (idx : Nat) (tools : List τ)
  | closeCall (idx : Nat)

/-- Whether an event is the getTools call. -/
def isGetToolsEv : AgentEv τ → Bool
  | AgentEv.getToolsCall => true
  | _ => false

/-- Whether an event is a closer invocation. -/
def isCloseEv : AgentEv τ → Bool
  | AgentEv.closeCall _ => true
  | _ => false

/-- Structural helper for `chunks`: the fuel dominates the list length, and
each step of the loop consumes at least one element when the batch size is
positive. -/
def chunksAux (bs : Nat) : Nat → List α → List (List α)
  | 0, _ => []
  | _, [] => []
  | Nat.succ fuel, x :: xs =>
    List.take bs (x :: xs) :: chunksAux bs fuel (List.drop (bs - 1) xs)

/-- The batching of the item list performed by the for loop
`for (i = 0; i < items.length; i += batchSize)` with `items.slice(i, i +
batchSize)`. A batch size of zero would make the source loop forever; the
theorems therefore only speak about positive batch sizes. -/
def chunks (bs : Nat) (l : List α) : List (List α) :=
  if bs = 0 then [] else chunksAux bs l.length l

/-- The forEach over one batch's settled results: a fulfilled item contributes
its row; a rejected item contributes an error row under continueOnFail and
otherwise aborts the whole run with that error (the source throws a
NodeOperationError from inside the loop). -/
def collectBatch (cof : Bool) : List (Except String ρ) → Except String (List (Except String ρ))
  | [] => Except.ok []
  | r :: rest =>
    match r with
    | Except.ok v => Except.map (fun tail => Except.ok v :: tail) (collectBatch cof rest)
    | Except.error e =>
      if cof then Except.map (fun tail => Except.error e :: tail) (collectBatch cof rest)
      else Except.error e

/-- The batched processing loop of toolsAgentExecute: every item of a batch
is dispatched (Promise.allSettled processes the whole batch) with the tools
array fixed at getTools time, then the batch results are collected; an abort
stops later batches. -/
def processAll (tools : List τ) (cof : Bool) :
    List (List (Except String ρ)) → Nat →
    List (AgentEv τ) × Except String (List (Except String ρ))
  | [], _ => ([], Except.ok [])
  | b :: rest, idx =>
    let evs := (List.range b.length).map (fun j => AgentEv.processItem (idx + j) tools)
    match collectBatch cof b with
    | Except.error e => (evs, Except.error e)
    | Except.ok rows =>
      let next := processAll tools cof rest (idx + b.length)
      (evs ++ next.1, Except.map (fun tail => rows ++ tail) next.2)

/-- Translated from `toolsAgentExecute` in ToolsAgent/V2/execute.ts as a
trace-producing function. In source order: getOptionalOutputParser runs
first (a failure there precedes getTools); getTools is called exactly once
and its failure aborts the run; getOptionalMemory and getChatModel are then
awaited, still before the try block, so a failure there aborts the run
without entering the finally; only then does the try run the batched loop,
and the finally invokes every closer, each inside its own try/catch so a
closer's failure is only logged and never alters the primary outcome. Item
processing outcomes, the load steps and the closers are passed as data; the
first component is the event trace, the second the primary outcome. -/
def toolsAgentExecute (outputParserLoad : Except String Unit)
    (getToolsResult : Except String (ToolsResult τ))
    (memoryLoad modelLoad : Except String Unit)
    (batchSize : Nat) (items : List (Except String ρ)) (continueOnFail : Bool) :
    List (AgentEv τ) × Except String (List (Except String ρ)) :=
  match outputParserLoad with
  | Except.error e => ([], Except.error e)
  | Except.ok _ =>
    match getToolsResult with
    | Except.error e => ([AgentEv.getToolsCall], Except.error e)
    | Except.ok tr =>
      match memoryLoad with
      | Except.error e => ([AgentEv.getToolsCall], Except.error e)
      | Except.ok _ =>
        match modelLoad with
        | Except.error e => ([AgentEv.getToolsCall], Except.error e)
        | Except.ok _ =>
          let pr := processAll tr.tools continueOnFail (chunks batchSize items) 0
          let closeEvs := (List.range tr.closeFunctions.length).map (fun i => AgentEv.closeCall i)
          (AgentEv.getToolsCall :: (pr.1 ++ closeEvs), pr.2)

/-! ## Theorems -/

/-- Helper: a terminating cursor chain makes getAllTools return the ordered
concatenation of its pages, a missing or non-array tools field contributing
the empty page. -/
theorem getAllTools_chain_eq (srv : Option String → Except ε (ListToolsResponse α))
    (c : Option String) (ps : List (ListToolsResponse α)) (h : Chain srv c ps) :
    ∀ fuel, ps.length ≤ fuel →
      getAllTools srv fuel c
        = some (Except.ok ((ps.map (fun p => p.tools.getD [])).flatten)) := by
  induction h with
  | last c p hsrv hterm =>
    intro fuel hf
    cases fuel with
    | zero => simp at hf
    | succ f =>
      cases hterm with
      | inl hn => simp [getAllTools, hsrv, hn]
      | inr hs => simp [getAllTools, hsrv, hs]
  | step c p c2 ps hsrv hnext hne hch ih =>
    intro fuel hf
    cases fuel with
    | zero => simp at hf
    | succ f =>
      have hlen : ps.length ≤ f := by
        simp only [List.length_cons] at hf
        omega
      simp [getAllTools, hsrv, hnext, hne, ih f hlen, Except.map]

/-- Helper: a transport failure on any page of the cursor chain makes
getAllTools return exactly that error, with no partial result. -/
theorem getAllTools_failsAt (srv : Option String → Except ε (ListToolsResponse α))
    (c : Option String) (e : ε) (n : Nat) (h : FailsAt srv c e n) :
    ∀ fuel, n < fuel → getAllTools srv fuel c = some (Except.error e) := by
  induction h with
  | here c e hsrv =>
    intro fuel hf
    cases fuel with
    | zero => omega
    | succ f => simp [getAllTools, hsrv]
  | there c p c2 e n hsrv hnext hne hfa ih =>
    intro fuel hf
    cases fuel with
    | zero => omega
    | succ f =>
      have hn : n < f := by omega
      simp [getAllTools, hsrv, hnext, hne, ih f hn, Except.map]

/-- Claim C3: for every cursor chain of N pages ending in a response with a
falsy nextCursor, getAllTools returns the concatenation of all pages in
cursor-chain order with within-page order preserved, a page with a missing or
non-array tools field contributing zero entries; and if any page request
fails, the whole listing fails with that error and no partial result is
returned. -/
theorem getAllTools_pagination (α ε : Type) :
    (∀ (srv : Option String → Except ε (ListToolsResponse α)) (c : Option String)
      (ps : List (ListToolsResponse α)) (fuel : Nat), Chain srv c ps → ps.length ≤ fuel →
      getAllTools srv fuel c
        = some (Except.ok ((ps.map (fun p => p.tools.getD [])).flatten)))
  ∧ (∀ (srv : Option String → Except ε (ListToolsResponse α)) (c : Option String)
      (e : ε) (n fuel : Nat), FailsAt srv c e n → n < fuel →
      getAllTools srv fuel c = some (Except.error e)) :=
  ⟨fun srv c ps fuel h hf => getAllTools_chain_eq srv c ps h fuel hf,
   fun srv c e n fuel h hf => getAllTools_failsAt srv c e n h fuel hf⟩

/-- Witness for C3 at the concrete three-page server (the middle page has a
non-array tools field) and at a server failing on its second page. -/
theorem getAllTools_pagination_witness :
    getAllTools srvOkEx 3 none = some (Except.ok [1, 2, 3])
  ∧ getAllTools srvFailEx 2 none = some (Except.error ("transport failure")) := by
  have h := (getAllTools_pagination Nat String).1 srvOkEx none [pageA, pageB, pageC] 3
    (Chain.step none pageA "c1" [pageB, pageC] rfl rfl (by decide)
      (Chain.step (some ("c1")) pageB "c2" [pageC] rfl rfl (by decide)
        (Chain.last (some ("c2")) pageC rfl (Or.inl rfl)))) (by decide)
  have h2 := (getAllTools_pagination Nat String).2 srvFailEx none ("transport failure") 1 2
    (FailsAt.there none pageA "c1" ("transport failure") 0 rfl rfl (by decide)
      (FailsAt.here (some ("c1")) ("transport failure") rfl)) (by decide)
  exact ⟨h.trans rfl, h2⟩

/-- Claim C7: the error string extracted from a remote tool-call result
follows the precedence content-array text, else flat toolResult string, else
flat message string, else none; for a result object where exactly one shape
is present the corresponding text is returned, the first textual element of
the content array wins, and non-objects yield none. -/
theorem getErrorDescription_precedence (t u : String) :
    getErrorDescriptionFromToolCall (JsVal.vObj [("content",
        JsVal.vArr [JsVal.vObj [("type", JsVal.vStr ("text")), ("text", JsVal.vStr t)]])]) = some t
  ∧ getErrorDescriptionFromToolCall (JsVal.vObj [("toolResult", JsVal.vStr t)]) = some t
  ∧ getErrorDescriptionFromToolCall (JsVal.vObj [("message", JsVal.vStr t)]) = some t
  ∧ getErrorDescriptionFromToolCall (JsVal.vObj []) = none
  ∧ getErrorDescriptionFromToolCall (JsVal.vStr ("oops")) = none
  ∧ getErrorDescriptionFromToolCall (JsVal.vNum 3) = none
  ∧ getErrorDescriptionFromToolCall JsVal.vNull = none
  ∧ getErrorDescriptionFromToolCall (JsVal.vObj [("content",
        JsVal.vArr [JsVal.vNum 1, JsVal.vObj [("text", JsVal.vStr t)],
          JsVal.vObj [("text", JsVal.vStr u)]]),
      ("toolResult", JsVal.vStr u)]) = some t
  ∧ getErrorDescriptionFromToolCall
      (JsVal.vObj [("toolResult", JsVal.vStr t), ("message", JsVal.vStr u)]) = some t :=
  ⟨rfl, rfl, rfl, rfl, rfl, rfl, rfl, rfl, rfl⟩

/-- Claim C9: the tool selection filter is pure and total: selected with a
missing or empty include list returns the full catalogue, selected with a
non-empty include list keeps exactly the named tools, except removes the
named tools, and all as well as any unknown mode returns the catalogue
unchanged. -/
theorem getSelectedTools_filter (inc ex : Option (List String)) (ts : List McpTool)
    (x : String) (xs : List String) :
    getSelectedTools ("selected") none ex ts = ts
  ∧ getSelectedTools ("selected") (some []) ex ts = ts
  ∧ getSelectedTools ("selected") (some (x :: xs)) ex ts
      = ts.filter (fun t => (x :: xs).contains t.name)
  ∧ getSelectedTools ("except") inc ex ts
      = ts.filter (fun t => !((ex.getD []).contains t.name))
  ∧ getSelectedTools ("all") inc ex ts = ts
  ∧ (∀ m : String, m ≠ "selected" → m ≠ "except" → getSelectedTools m inc ex ts = ts) := by
  refine ⟨rfl, rfl, rfl, rfl, rfl, ?_⟩
  intro m h1 h2
  simp [getSelectedTools, h1, h2]

/-- Witness for C9 at a concrete unknown mode value. -/
theorem getSelectedTools_filter_witness :
    getSelectedTools ("weird") (some (["a"])) (some (["b"])) [] = ([] : List McpTool) :=
  (getSelectedTools_filter (some (["a"])) (some (["b"])) [] "z" []).2.2.2.2.2
    ("weird") (by decide) (by decide)

/-- Claim C4 counterexample: the root-self-reference schema compiles, but the
compiled validator accepts a sample that violates the root schema at the
referenced position (its child is a number), which the spec-side recursive
semantics rejects; a genuinely matching sample shows the schema is
satisfiable. So the compiled validator does not enforce the root schema at
the referenced position. -/
theorem parseRef_accepts_nonmatching_sample :
    isOkE (convertJsonSchemaToZod recRoot) = true
  ∧ zodValidate 4 compiledRecRoot badSample = true
  ∧ specSchemaAccepts recRoot 4 recRoot badSample = false
  ∧ specSchemaAccepts recRoot 4 recRoot goodSample = true :=
  ⟨rfl, rfl, rfl, rfl⟩

/-- Claim C4 (amended): a schema containing a root self-reference compiles
without infinite recursion, the referenced node being resolved lazily when
the validator is invoked; but the lazily resolved node is the accept-anything
validator, so invocation terminates after one unfolding and the compiled
validator accepts any value at the referenced position instead of enforcing
the root schema there. -/
theorem parseRef_lazy_any (refs : Refs) (v child : JsVal) (fuel : Nat) :
    parseRef ("#") refs = Except.ok (Zod.lazy (fun _ => Zod.any))
  ∧ zodValidate (fuel + 2) (Zod.lazy (fun _ => Zod.any)) v = true
  ∧ zodValidate 4 compiledRecRoot
      (JsVal.vObj [("a", JsVal.vStr ("x")), ("child", child)]) = true :=
  ⟨rfl, rfl, rfl⟩

/-- Claim C5 counterexample: the boolean-false schema is not trivial in the
claim's sense (not absent, not an empty object, not boolean true), and a
conversion yielding the accept-anything validator for it is returned as a
tool without any error, because the source's triviality test treats every
falsy schema as trivial. -/
theorem mcpToolToDynamicTool_boolFalse_counterexample :
    claimTrivialSchema falseSchemaTool.inputSchema = false
  ∧ anyConvert falseSchemaTool.inputSchema = Except.ok Zod.any
  ∧ isZodAny Zod.any = true
  ∧ mcpToolToDynamicTool anyConvert falseSchemaTool
      = Except.ok { name := "t", description := "", schema := Zod.any } :=
  ⟨rfl, rfl, rfl, rfl⟩

/-- Claim C5 (amended): if the conversion yields the accept-anything
validator and the schema is not trivial in the source's sense (trivial being
any falsy schema, an empty-keys object, or boolean true), the adapter raises
an UnsupportedSchemaError, surfaced to the caller wrapped in a
NodeOperationError, instead of returning the tool; conversely a trivial
schema converted to the accept-anything validator yields the tool without
error. -/
theorem mcpToolToDynamicTool_anyGuard (convert : JsVal → Except SchemaParseErr Zod)
    (tool : McpTool) (z : Zod) (hconv : convert tool.inputSchema = Except.ok z) :
    (isZodAny z = true → isTrivialOriginalSchema tool.inputSchema = false →
      mcpToolToDynamicTool convert tool = Except.error (ToolConvErr.nodeOperation
        ("Failed to prepare tool " ++ tool.name ++ ": Schema conversion error. "
          ++ ("Schema for tool " ++ tool.name ++ " was converted to z.any(), indicating an unsupported feature or an empty schema that could not be processed into a stricter type."))))
  ∧ (isZodAny z = true → isTrivialOriginalSchema tool.inputSchema = true →
      mcpToolToDynamicTool convert tool
        = Except.ok { name := tool.name, description := tool.description.getD "", schema := z }) := by
  constructor
  · intro ha ht
    simp [mcpToolToDynamicTool, hconv, ha, ht]
  · intro ha ht
    simp [mcpToolToDynamicTool, hconv, ha, ht]

/-- Witness for C5 at the always-any converter: a non-empty object schema is
rejected with the wrapped error, while the empty object schema yields the
always-accept tool. -/
theorem mcpToolToDynamicTool_anyGuard_witness :
    mcpToolToDynamicTool anyConvert nontrivSchemaTool
      = Except.error (ToolConvErr.nodeOperation
        ("Failed to prepare tool nt: Schema conversion error. Schema for tool nt was converted to z.any(), indicating an unsupported feature or an empty schema that could not be processed into a stricter type."))
  ∧ mcpToolToDynamicTool anyConvert trivSchemaTool
      = Except.ok { name := "tv", description := "", schema := Zod.any } := by
  have h1 := mcpToolToDynamicTool_anyGuard anyConvert nontrivSchemaTool Zod.any rfl
  have h2 := mcpToolToDynamicTool_anyGuard anyConvert trivSchemaTool Zod.any rfl
  exact ⟨(h1.1 rfl rfl).trans rfl, h2.2 rfl rfl⟩

/-- Helper: the toolkit build returns exactly the successfully converted
descriptors, in catalogue order. -/
theorem buildToolkit_fst (convert : JsVal → Except SchemaParseErr Zod) :
    ∀ cat : List McpTool,
      (buildToolkit convert cat).1
        = cat.filterMap (fun t => (mcpToolToDynamicTool convert t).toOption) := by
  intro cat
  induction cat with
  | nil => rfl
  | cons t rest ih =>
    cases h : mcpToolToDynamicTool convert t with
    | ok d => simp [buildToolkit, h, ih, Except.toOption]
    | error e => simp [buildToolkit, h, ih, Except.toOption]

/-- Helper: the toolkit build records exactly the conversion errors, in
catalogue order. -/
theorem buildToolkit_snd (convert : JsVal → Except SchemaParseErr Zod) :
    ∀ cat : List McpTool,
      (buildToolkit convert cat).2
        = cat.filterMap (fun t => errOfExcept (mcpToolToDynamicTool convert t)) := by
  intro cat
  induction cat with
  | nil => rfl
  | cons t rest ih =>
    cases h : mcpToolToDynamicTool convert t with
    | ok d => simp [buildToolkit, h, ih, errOfExcept]
    | error e => simp [buildToolkit, h, ih, errOfExcept]

/-- Claim C6: building a toolkit never fails as a whole: it always returns
the descriptors of exactly the compilable capabilities together with the
recorded per-capability errors; in particular, for a catalogue containing a
capability with a supported schema and one with an unsupported schema, the
supported one's descriptor is returned and the unsupported one's error is
preserved for reporting. -/
theorem buildToolkit_capability_local_errors (convert : JsVal → Except SchemaParseErr Zod)
    (cat : List McpTool) (t1 t2 : McpTool) (d1 : DynamicStructuredTool) (e2 : ToolConvErr)
    (h1 : t1 ∈ cat) (hok : mcpToolToDynamicTool convert t1 = Except.ok d1)
    (h2 : t2 ∈ cat) (herr : mcpToolToDynamicTool convert t2 = Except.error e2) :
    (buildToolkit convert cat).1
      = cat.filterMap (fun t => (mcpToolToDynamicTool convert t).toOption)
  ∧ (buildToolkit convert cat).2
      = cat.filterMap (fun t => errOfExcept (mcpToolToDynamicTool convert t))
  ∧ d1 ∈ (buildToolkit convert cat).1
  ∧ e2 ∈ (buildToolkit convert cat).2 := by
  refine ⟨buildToolkit_fst convert cat, buildToolkit_snd convert cat, ?_, ?_⟩
  · rw [buildToolkit_fst]
    exact List.mem_filterMap.mpr ⟨t1, h1, by rw [hok]; rfl⟩
  · rw [buildToolkit_snd]
    exact List.mem_filterMap.mpr ⟨t2, h2, by rw [herr]; rfl⟩

/-- Witness for C6 at a concrete two-capability catalogue: one capability
compiles, the other is unsupported; the build returns exactly the compilable
descriptor and records exactly the one failure. -/
theorem buildToolkit_capability_local_errors_witness :
    (buildToolkit convEx [toolOkEx, toolBadEx]).1
      = [{ name := "alpha", description := "first", schema := Zod.str }]
  ∧ (buildToolkit convEx [toolOkEx, toolBadEx]).2
      = [ToolConvErr.nodeOperation
          ("Failed to prepare tool beta: Schema conversion error. no parser available")] := by
  have h := buildToolkit_capability_local_errors convEx [toolOkEx, toolBadEx] toolOkEx toolBadEx
    { name := "alpha", description := "first", schema := Zod.str }
    (ToolConvErr.nodeOperation
      ("Failed to prepare tool beta: Schema conversion error. no parser available"))
    (List.mem_cons_self _ _) rfl
    (List.mem_cons_of_mem _ (List.mem_cons_self _ _)) rfl
  exact ⟨h.1.trans rfl, h.2.1.trans rfl⟩

/-- Claim C8: an address without a scheme gets the secure scheme prefixed
before validation; a malformed (unparseable) address yields an invalid_url
error with no transport construction and no connect attempt; only a valid
address opens a session, the transport and connect targeting the parsed URL,
and a handshake failure is returned as a connection error rather than
thrown. -/
theorem connectMcpClient_validation (υ γ : Type) (newUrl : String → Option υ)
    (connect : υ → Except String γ) (addr : String) :
    (hasHttpScheme addr = false → withProtocol addr = "https://" ++ addr)
  ∧ (hasHttpScheme addr = true → withProtocol addr = addr)
  ∧ (newUrl (withProtocol addr) = none →
      connectMcpClient newUrl connect addr
        = (Except.error (ConnectMcpClientError.invalid_url
            ("Invalid URL: " ++ withProtocol addr)), []))
  ∧ (∀ u, newUrl (withProtocol addr) = some u →
      (connectMcpClient newUrl connect addr).2
        = [NetEv.transportCreated u, NetEv.connectAttempt u]
      ∧ (∀ m, connect u = Except.error m →
          (connectMcpClient newUrl connect addr).1
            = Except.error (ConnectMcpClientError.connection m))
      ∧ (∀ c, connect u = Except.ok c →
          (connectMcpClient newUrl connect addr).1 = Except.ok c)) := by
  refine ⟨fun h => by simp [withProtocol, h], fun h => by simp [withProtocol, h], ?_, ?_⟩
  · intro h
    simp [connectMcpClient, normalizeAndValidateUrl, h]
  · intro u hu
    refine ⟨?_, ?_, ?_⟩
    · cases hc : connect u with
      | ok c => simp [connectMcpClient, normalizeAndValidateUrl, hu, hc]
      | error m => simp [connectMcpClient, normalizeAndValidateUrl, hu, hc]
    · intro m hm
      simp [connectMcpClient, normalizeAndValidateUrl, hu, hm]
    · intro c hc
      simp [connectMcpClient, normalizeAndValidateUrl, hu, hc]

/-- Witness for C8: a scheme-less address is prefixed and its refused
handshake is returned as a connection error after exactly one transport
construction and one connect attempt, while an unparseable address yields an
invalid_url error with no network events. -/
theorem connectMcpClient_validation_witness :
    connectMcpClient urlParseEx connectEx ("h")
      = (Except.error (ConnectMcpClientError.connection ("handshake refused")),
         [NetEv.transportCreated ("https://h"), NetEv.connectAttempt ("https://h")])
  ∧ connectMcpClient urlParseEx connectEx ("%%bad")
      = (Except.error (ConnectMcpClientError.invalid_url
          ("Invalid URL: https://%%bad")), []) := by
  have h := (connectMcpClient_validation String Nat urlParseEx connectEx ("h")).2.2.2
    ("https://h") rfl
  have h2 := (connectMcpClient_validation String Nat urlParseEx connectEx ("%%bad")).2.2.1 rfl
  exact ⟨Prod.ext (h.2.1 ("handshake refused") rfl) h.1, h2⟩

/-- Claim C10: normalization never rewrites an explicit scheme: when the
address already starts with http:// or https:// in any letter case, the
string handed to the URL constructor is the input itself (an explicitly
insecure http address is not upgraded), and the https prefix is added only
when no such scheme is present. -/
theorem normalizeAndValidateUrl_scheme_preserved (υ : Type) (newUrl : String → Option υ)
    (addr : String) :
    (hasHttpScheme addr = true → withProtocol addr = addr)
  ∧ (hasHttpScheme addr = true → ∀ u, newUrl addr = some u →
      normalizeAndValidateUrl newUrl addr = Except.ok u)
  ∧ (hasHttpScheme addr = true → newUrl addr = none →
      normalizeAndValidateUrl newUrl addr = Except.error ("Invalid URL: " ++ addr))
  ∧ (hasHttpScheme addr = false → withProtocol addr = "https://" ++ addr) := by
  refine ⟨fun h => by simp [withProtocol, h], ?_, ?_, fun h => by simp [withProtocol, h]⟩
  · intro h u hu
    simp [normalizeAndValidateUrl, withProtocol, h, hu]
  · intro h hu
    simp [normalizeAndValidateUrl, withProtocol, h, hu]

/-- Witness for C10: a mixed-case explicitly insecure address is parsed
unchanged, and a scheme-less address gets the https prefix. -/
theorem normalizeAndValidateUrl_scheme_preserved_witness :
    withProtocol ("HtTp://insecure.example") = "HtTp://insecure.example"
  ∧ normalizeAndValidateUrl (fun s => some s) ("HtTp://insecure.example")
      = Except.ok ("HtTp://insecure.example")
  ∧ withProtocol ("no.scheme.example") = "https://no.scheme.example" := by
  have h := normalizeAndValidateUrl_scheme_preserved String (fun s => some s)
    ("HtTp://insecure.example")
  have h2 := normalizeAndValidateUrl_scheme_preserved String (fun s => some s)
    ("no.scheme.example")
  exact ⟨h.1 (by decide), h.2.1 (by decide) ("HtTp://insecure.example") rfl,
    h2.2.2.2 (by decide)⟩

/-- Helper: every event emitted by the batched processing loop is a
processItem event carrying exactly the tools array fixed at getTools time. -/
theorem processAll_events (tools : List τ) (cof : Bool) :
    ∀ (bs : List (List (Except String ρ))) (idx : Nat) (ev : AgentEv τ),
      ev ∈ (processAll tools cof bs idx).1 → ∃ i, ev = AgentEv.processItem i tools := by
  intro bs
  induction bs with
  | nil =>
    intro idx ev h
    simp [processAll] at h
  | cons b rest ih =>
    intro idx ev h
    cases hc : collectBatch (ρ := ρ) cof b with
    | error e =>
      simp [processAll, hc] at h
      obtain ⟨j, hj, hev⟩ := h
      exact ⟨idx + j, hev.symm⟩
    | ok rows =>
      simp [processAll, hc] at h
      rcases h with ⟨j, hj, hev⟩ | hmem
      · exact ⟨idx + j, hev.symm⟩
      · exact ih (idx + b.length) ev hmem

/-- Claim C1: within one execution whose optional output parser loads,
toolsAgentExecute performs the getTools call exactly once, as the first
observable step, before processing any item, and every processed item uses
the very tools array returned by that single call, for every batch; so no
reconnection happens between individual tool invocations. -/
theorem toolsAgentExecute_fetches_tools_once (τ ρ : Type)
    (trE : Except String (ToolsResult τ)) (memOk modelOk : Except String Unit)
    (bs : Nat) (items : List (Except String ρ)) (cof : Bool) (hbs : 0 < bs) :
    List.countP (fun e => isGetToolsEv e)
      (toolsAgentExecute (Except.ok ()) trE memOk modelOk bs items cof).1 = 1
  ∧ (toolsAgentExecute (Except.ok ()) trE memOk modelOk bs items cof).1.head?
      = some AgentEv.getToolsCall
  ∧ (∀ tr : ToolsResult τ, trE = Except.ok tr →
      ∀ i ts, AgentEv.processItem i ts
          ∈ (toolsAgentExecute (Except.ok ()) trE memOk modelOk bs items cof).1 →
        ts = tr.tools) := by
  cases trE with
  | error e =>
    refine ⟨by simp [toolsAgentExecute, isGetToolsEv], rfl, ?_⟩
    intro tr htr
    exact absurd htr (by simp)
  | ok tr =>
    cases memOk with
    | error e =>
      refine ⟨by simp [toolsAgentExecute, isGetToolsEv], rfl, ?_⟩
      intro tr2 htr i ts hmem
      simp [toolsAgentExecute] at hmem
    | ok _ =>
      cases modelOk with
      | error e =>
        refine ⟨by simp [toolsAgentExecute, isGetToolsEv], rfl, ?_⟩
        intro tr2 htr i ts hmem
        simp [toolsAgentExecute] at hmem
      | ok _ =>
        refine ⟨?_, rfl, ?_⟩
        · simp only [toolsAgentExecute, List.countP_cons, List.countP_append]
          have hp : List.countP (fun e => isGetToolsEv e)
              (processAll tr.tools cof (chunks bs items) 0).1 = 0 := by
            refine List.countP_eq_zero.mpr ?_
            intro ev hev
            obtain ⟨i, rfl⟩ := processAll_events tr.tools cof (chunks bs items) 0 ev hev
            simp [isGetToolsEv]
          have hc2 : List.countP (fun e => isGetToolsEv e)
              ((List.range tr.closeFunctions.length).map
                (fun i => (AgentEv.closeCall i : AgentEv τ))) = 0 := by
            refine List.countP_eq_zero.mpr ?_
            intro ev hev
            simp only [List.mem_map] at hev
            obtain ⟨i, _, rfl⟩ := hev
            simp [isGetToolsEv]
          rw [hp, hc2]
          simp [isGetToolsEv]
        · intro tr2 htr i ts hmem
          injection htr with h
          subst h
          rcases List.mem_cons.mp hmem with hbad | hmem2
          · exact absurd hbad (by simp)
          · rcases List.mem_append.mp hmem2 with hpr | hclose
            · obtain ⟨j, hj⟩ := processAll_events tr.tools cof (chunks bs items) 0 _ hpr
              exact (AgentEv.processItem.inj hj).2
            · rcases List.mem_map.mp hclose with ⟨k, hk1, hk2⟩
              exact absurd hk2 (by simp)

/-- Witness for C1 at a concrete run of three items in batches of two. -/
theorem toolsAgentExecute_fetches_tools_once_witness :
    List.countP (fun e => isGetToolsEv e)
      (toolsAgentExecute (Except.ok ())
        (Except.ok ({ tools := [7], closeFunctions := [Except.ok ()] } : ToolsResult Nat))
        (Except.ok ()) (Except.ok ()) 2
        ([Except.ok 0, Except.ok 1, Except.ok 2] : List (Except String Nat)) false).1 = 1
  ∧ (∀ i ts, AgentEv.processItem i ts
        ∈ (toolsAgentExecute (Except.ok ())
            (Except.ok ({ tools := [7], closeFunctions := [Except.ok ()] } : ToolsResult Nat))
            (Except.ok ()) (Except.ok ()) 2
            ([Except.ok 0, Except.ok 1, Except.ok 2] : List (Except String Nat)) false).1 →
      ts = [7]) := by
  have h := toolsAgentExecute_fetches_tools_once Nat Nat
    (Except.ok ({ tools := [7], closeFunctions := [Except.ok ()] } : ToolsResult Nat))
    (Except.ok ()) (Except.ok ()) 2
    ([Except.ok 0, Except.ok 1, Except.ok 2] : List (Except String Nat)) false (by decide)
  exact ⟨h.1, fun i ts hm => h.2.2 _ rfl i ts hm⟩

/-- Claim C2, evaluated at the failing input: when getChatModel rejects after
getTools has returned two closers, the run aborts with the model error and
the trace contains no closer invocation at all (the finally block is never
entered), so the closers are not invoked exactly once on this exit path; by
contrast, on an error raised inside the processing loop the same two closers
are each invoked exactly once, a closer whose own invocation fails neither
preventing the other's invocation nor altering the primary error. -/
theorem toolsAgentExecute_close_skipped_on_model_error :
    toolsAgentExecute (Except.ok ())
      (Except.ok ({ tools := [0], closeFunctions := [Except.ok (), Except.error ("bad close")] } : ToolsResult Nat))
      (Except.ok ()) (Except.error ("getChatModel failed")) 1
      ([Except.ok 0] : List (Except String Nat)) false
      = ([AgentEv.getToolsCall], Except.error ("getChatModel failed"))
  ∧ toolsAgentExecute (Except.ok ())
      (Except.ok ({ tools := [0], closeFunctions := [Except.ok (), Except.error ("bad close")] } : ToolsResult Nat))
      (Except.ok ()) (Except.ok ()) 1
      ([Except.error ("item boom")] : List (Except String Nat)) false
      = ([AgentEv.getToolsCall, AgentEv.processItem 0 [0],
          AgentEv.closeCall 0, AgentEv.closeCall 1], Except.error ("item boom")) :=
  ⟨rfl, rfl⟩
